import Mathlib

/-!
# Verification of the data-privacy-toolkit column transforms

Shallow embedding of `src/main.py` (`DataPrivacyToolkit`): a pandas
DataFrame is modelled as an ordered list of named columns of Python
values, and each of the five public operations is translated as a total
function returning the new table together with the report that the
Python code prints (success message, or the caught exception's message).
Randomness (`random.choices`, the faker generators) is modelled by
explicit streams passed as parameters. SHA-256 is implemented in full
(FIPS 180-4) over `Nat` with explicit `% 2^32` reductions.
-/

namespace DPT

/-- A Python value as it can appear in a DataFrame cell in this program:
a string, an integer, or a missing value (pandas `NaN`). -/
inductive PyVal where
  | str (s : String)
  | int (n : Int)
  | none
deriving DecidableEq, Repr

/-- Python `str()` coercion as used by `hash_data` (`str(x)`):
strings render as themselves, integers in decimal, `NaN` as `"nan"`. -/
def pyStr : PyVal → String
  | .str s => s
  | .int n => toString n
  | .none => "nan"

/-- UTF-8 encoding of one code point, as a list of byte values. -/
def utf8Char (c : Char) : List Nat :=
  let n := c.toNat
  if n < 0x80 then [n]
  else if n < 0x800 then [0xC0 + n / 64, 0x80 + n % 64]
  else if n < 0x10000 then
    [0xE0 + n / 4096, 0x80 + (n / 64) % 64, 0x80 + n % 64]
  else
    [0xF0 + n / 262144, 0x80 + (n / 4096) % 64, 0x80 + (n / 64) % 64, 0x80 + n % 64]

/-- UTF-8 encoding of a string (Python `s.encode()`). -/
def utf8 (s : String) : List Nat :=
  (s.toList.map utf8Char).flatten

/-! ## SHA-256 (FIPS 180-4), over `Nat` with explicit mod-2^32 arithmetic -/

/-- 32-bit right rotation. -/
def rotr (n x : Nat) : Nat :=
  ((x >>> n) ||| (x <<< (32 - n))) % 2 ^ 32

def bigSigma0 (x : Nat) : Nat := rotr 2 x ^^^ rotr 13 x ^^^ rotr 22 x
def bigSigma1 (x : Nat) : Nat := rotr 6 x ^^^ rotr 11 x ^^^ rotr 25 x
def smallSigma0 (x : Nat) : Nat := rotr 7 x ^^^ rotr 18 x ^^^ (x >>> 3)
def smallSigma1 (x : Nat) : Nat := rotr 17 x ^^^ rotr 19 x ^^^ (x >>> 10)
def ch (x y z : Nat) : Nat := (x &&& y) ^^^ ((x ^^^ 0xFFFFFFFF) &&& z)
def maj (x y z : Nat) : Nat := (x &&& y) ^^^ (x &&& z) ^^^ (y &&& z)

/-- The 64 SHA-256 round constants (decimal). -/
def K256 : List Nat :=
  [1116352408, 1899447441, 3049323471, 3921009573, 961987163,
   1508970993, 2453635748, 2870763221, 3624381080, 310598401,
   607225278, 1426881987, 1925078388, 2162078206, 2614888103,
   3248222580, 3835390401, 4022224774, 264347078, 604807628,
   770255983, 1249150122, 1555081692, 1996064986, 2554220882,
   2821834349, 2952996808, 3210313671, 3336571891, 3584528711,
   113926993, 338241895, 666307205, 773529912, 1294757372,
   1396182291, 1695183700, 1986661051, 2177026350, 2456956037,
   2730485921, 2820302411, 3259730800, 3345764771, 3516065817,
   3600352804, 4094571909, 275423344, 430227734, 506948616,
   659060556, 883997877, 958139571, 1322822218, 1537002063,
   1747873779, 1955562222, 2024104815, 2227730452, 2361852424,
   2428436474, 2756734187, 3204031479, 3329325298]

/-- SHA-256 working state: eight 32-bit words. -/
structure Hash8 where
  a : Nat
  b : Nat
  c : Nat
  d : Nat
  e : Nat
  f : Nat
  g : Nat
  h : Nat
deriving Repr, DecidableEq

/-- The SHA-256 initial hash value (decimal). -/
def H0 : Hash8 :=
  ⟨1779033703, 3144134277, 1013904242, 2773480762,
   1359893119, 2600822924, 528734635, 1541459225⟩

/-- One SHA-256 compression round with schedule word `w` and constant `k`. -/
def round256 (st : Hash8) (w k : Nat) : Hash8 :=
  let t1 := (st.h + bigSigma1 st.e + ch st.e st.f st.g + k + w) % 2 ^ 32
  let t2 := (bigSigma0 st.a + maj st.a st.b st.c) % 2 ^ 32
  ⟨(t1 + t2) % 2 ^ 32, st.a, st.b, st.c, (st.d + t1) % 2 ^ 32, st.e, st.f, st.g⟩

/-- Run the 64 compression rounds over the paired schedule/constant list. -/
def rounds256 : List (Nat × Nat) → Hash8 → Hash8
  | [], st => st
  | (w, k) :: rest, st => rounds256 rest (round256 st w k)

/-- Extend the 16 message words to 64; `acc` holds the words generated so
far in reverse order, `n` counts the remaining extension steps. -/
def scheduleAux : Nat → List Nat → List Nat
  | 0, acc => acc.reverse
  | n + 1, acc =>
    let w2 := acc.getD 1 0
    let w7 := acc.getD 6 0
    let w15 := acc.getD 14 0
    let w16 := acc.getD 15 0
    let w := (smallSigma1 w2 + w7 + smallSigma0 w15 + w16) % 2 ^ 32
    scheduleAux n (w :: acc)

/-- The full 64-word message schedule of one block. -/
def schedule (block : List Nat) : List Nat :=
  scheduleAux 48 block.reverse

/-- Compress one 16-word block into the running hash. -/
def compress (st : Hash8) (block : List Nat) : Hash8 :=
  let out := rounds256 ((schedule block).zip K256) st
  ⟨(st.a + out.a) % 2 ^ 32, (st.b + out.b) % 2 ^ 32,
   (st.c + out.c) % 2 ^ 32, (st.d + out.d) % 2 ^ 32,
   (st.e + out.e) % 2 ^ 32, (st.f + out.f) % 2 ^ 32,
   (st.g + out.g) % 2 ^ 32, (st.h + out.h) % 2 ^ 32⟩

/-- Group bytes into big-endian 32-bit words. -/
def toWords : List Nat → List Nat
  | b0 :: b1 :: b2 :: b3 :: rest =>
    (b0 * 2 ^ 24 + b1 * 2 ^ 16 + b2 * 2 ^ 8 + b3) :: toWords rest
  | _ => []

/-- Group a word list into 16-word blocks. -/
def toBlocks : List Nat → List (List Nat)
  | w0 :: w1 :: w2 :: w3 :: w4 :: w5 :: w6 :: w7 ::
    w8 :: w9 :: w10 :: w11 :: w12 :: w13 :: w14 :: w15 :: rest =>
    [w0, w1, w2, w3, w4, w5, w6, w7, w8, w9, w10, w11, w12, w13, w14, w15]
      :: toBlocks rest
  | _ => []

/-- SHA-256 message padding: append `0x80`, zeros to 56 mod 64, then the
bit length as eight big-endian bytes. -/
def pad256 (msg : List Nat) : List Nat :=
  let l := msg.length
  let zeros := (119 - l % 64) % 64
  let bl := 8 * l
  msg ++ [0x80] ++ List.replicate zeros 0 ++
    [(bl >>> 56) % 256, (bl >>> 48) % 256, (bl >>> 40) % 256, (bl >>> 32) % 256,
     (bl >>> 24) % 256, (bl >>> 16) % 256, (bl >>> 8) % 256, bl % 256]

/-- SHA-256 of a byte list, as the final eight-word state. -/
def sha256State (msg : List Nat) : Hash8 :=
  (toBlocks (toWords (pad256 msg))).foldl compress H0

/-- Lowercase hexadecimal digit for a nibble. -/
def hexChar (n : Nat) : Char :=
  "0123456789abcdef".toList.getD n '0'

/-- Eight lowercase hex digits of a 32-bit word, most significant first. -/
def wordHex (w : Nat) : List Char :=
  [hexChar ((w >>> 28) % 16), hexChar ((w >>> 24) % 16),
   hexChar ((w >>> 20) % 16), hexChar ((w >>> 16) % 16),
   hexChar ((w >>> 12) % 16), hexChar ((w >>> 8) % 16),
   hexChar ((w >>> 4) % 16), hexChar (w % 16)]

/-- `hashlib.sha256(bytes).hexdigest()`: the 64-character lowercase hex
digest of a byte list. -/
def sha256hex (msg : List Nat) : String :=
  let st := sha256State msg
  String.mk (wordHex st.a ++ wordHex st.b ++ wordHex st.c ++ wordHex st.d ++
             wordHex st.e ++ wordHex st.f ++ wordHex st.g ++ wordHex st.h)

/-- The transform `hash_data` applies to each cell:
`hashlib.sha256(str(x).encode()).hexdigest()`. -/
def sha256OfVal (v : PyVal) : String :=
  sha256hex (utf8 (pyStr v))

/-! ## The DataFrame model -/

/-- A pandas DataFrame: an ordered list of named columns, each an ordered
list of cell values. -/
structure Table where
  cols : List (String × List PyVal)
deriving DecidableEq, Repr

/-- Column read `df[name]`: the first column with that name, if any. -/
def Table.getCol (t : Table) (name : String) : Option (List PyVal) :=
  (t.cols.find? (fun p => p.1 = name)).map (·.2)

/-- Column assignment `df[name] = values`: replaces the existing column
in place, or appends a new column of that name at the end (pandas
creates the column when it is absent). -/
def Table.setCol (t : Table) (name : String) (vs : List PyVal) : Table :=
  if t.cols.any (fun p => p.1 = name) then
    ⟨t.cols.map (fun p => if p.1 = name then (p.1, vs) else p)⟩
  else
    ⟨t.cols ++ [(name, vs)]⟩

/-- `df.drop(columns=[name])`: every column with that label is removed. -/
def Table.eraseCol (t : Table) (name : String) : Table :=
  ⟨t.cols.filter (fun p => p.1 ≠ name)⟩

/-- `len(df)`: the number of rows (length of the first column; 0 for an
empty frame). -/
def Table.nrows (t : Table) : Nat :=
  match t.cols with
  | [] => 0
  | (_, vs) :: _ => vs.length

/-- The ordered list of column names. -/
def Table.names (t : Table) : List String :=
  t.cols.map (·.1)

/-! ## Errors and reports

Each Python method wraps its body in `try`/`except` and prints either a
success message or an error message; nothing is raised to the caller.
The raw bodies are modelled in `Except PyErr`, the public methods as
total functions returning the new table and the printed report. -/

/-- A raised Python exception, before it is caught at the method
boundary: a `KeyError` (missing column) or a `ValueError` (bad tag). -/
inductive PyErr where
  | keyError (k : String)
  | valueError (msg : String)
  | osError (msg : String)
deriving DecidableEq, Repr

/-- Python `str(e)` for the exceptions this code can raise: `KeyError`
renders its key in quotes, the others render their message. -/
def renderErr : PyErr → String
  | .keyError k => "'" ++ k ++ "'"
  | .valueError m => m
  | .osError m => m

/-- What one method call prints: a success message, the dedicated
missing-column message of `drop_sensitive_data`'s `except KeyError`
branch, or a generic caught-failure message. -/
inductive Report where
  | success (msg : String)
  | columnNotFound (msg : String)
  | failure (msg : String)
deriving DecidableEq, Repr

/-! ## hash_data -/

/-- The `try`-block of `hash_data`: read the column (raising `KeyError`
when absent), hash every cell with
`hashlib.sha256(str(x).encode()).hexdigest()`, and assign the result
back. -/
def hash_data_raw (t : Table) (c : String) : Except PyErr Table :=
  match t.getCol c with
  | Option.none => .error (.keyError c)
  | some vs => .ok (t.setCol c (vs.map (fun v => .str (sha256OfVal v))))

/-- `DataPrivacyToolkit.hash_data`: the `try`-block wrapped by
`except Exception as e: print(...)`. -/
def hash_data (t : Table) (c : String) : Table × Report :=
  match hash_data_raw t c with
  | .ok t' => (t', .success ("Column '" ++ c ++ "' hashed successfully."))
  | .error e =>
    (t, .failure ("Error while hashing column '" ++ c ++ "': " ++ renderErr e))

/-! ## pseudonymize_data -/

/-- `string.ascii_letters + string.digits`: the 62-character alphabet
`random.choices` draws from. -/
def pseudoAlphabet : List Char :=
  "abcdefghijklmnopqrstuvwxyzABCDEFGHIJKLMNOPQRSTUVWXYZ0123456789".toList

/-- One call `''.join(random.choices(string.ascii_letters +
string.digits, k=10))`, reading ten draws from the random stream `r`
starting at offset `off`. -/
def pseudonym (r : Nat → Nat) (off : Nat) : String :=
  String.mk ((List.range 10).map (fun i => pseudoAlphabet.getD (r (off + i) % 62) 'a'))

/-- `Series.unique()`: the distinct values in first-occurrence order.
`seen` accumulates the values already emitted. -/
def uniqueAux : List PyVal → List PyVal → List PyVal
  | [], _ => []
  | v :: rest, seen =>
    if v ∈ seen then uniqueAux rest seen else v :: uniqueAux rest (v :: seen)

def uniqueList (l : List PyVal) : List PyVal :=
  uniqueAux l []

/-- The `pseudonyms` dict: one pseudonym per distinct value, drawn in
order from the stream (ten draws per entry). -/
def buildPseudos (r : Nat → Nat) : Nat → List PyVal → List (PyVal × String)
  | _, [] => []
  | off, v :: rest => (v, pseudonym r off) :: buildPseudos r (off + 10) rest

/-- Python dict lookup used by `Series.map(pseudonyms)`: first match, or
`NaN` for an unmapped value. -/
def mapLookup (m : List (PyVal × String)) (v : PyVal) : PyVal :=
  match m.find? (fun p => p.1 = v) with
  | some p => .str p.2
  | Option.none => .none

/-- The `try`-block of `pseudonymize_data`: build the pseudonym dict
over `unique()` of the column (raising `KeyError` when the column is
absent), then map the column through it. -/
def pseudonymize_data_raw (r : Nat → Nat) (t : Table) (c : String) :
    Except PyErr Table :=
  match t.getCol c with
  | Option.none => .error (.keyError c)
  | some vs =>
    let pseudos := buildPseudos r 0 (uniqueList vs)
    .ok (t.setCol c (vs.map (mapLookup pseudos)))

/-- `DataPrivacyToolkit.pseudonymize_data`, with the random source
modelled as the stream `r` of successive `random.choices` draws. -/
def pseudonymize_data (r : Nat → Nat) (t : Table) (c : String) : Table × Report :=
  match pseudonymize_data_raw r t c with
  | .ok t' => (t', .success ("Column '" ++ c ++ "' pseudonymized successfully."))
  | .error e =>
    (t, .failure ("Error while pseudonymizing column '" ++ c ++ "': " ++ renderErr e))

/-! ## create_fake_data -/

/-- The keys of the `data_generator` dispatch dict, in source order. -/
def generatorTags : List String :=
  ["name", "address", "email", "credit_card", "phone"]

/-- The `try`-block of `create_fake_data`: if the tag is registered,
assign `[generator() for _ in range(len(df))]` to the column (creating
it when absent); otherwise raise the `ValueError` naming the valid
tags. The faker generator's successive outputs are modelled by the
stream `g`. -/
def create_fake_data_raw (g : Nat → String) (t : Table) (c : String)
    (data_type : String) : Except PyErr Table :=
  if data_type ∈ generatorTags then
    .ok (t.setCol c ((List.range t.nrows).map (fun i => .str (g i))))
  else
    .error (.valueError ("Unsupported data type '" ++ data_type ++
      "'. Supported types are: name, address, email, credit_card, phone."))

/-- `DataPrivacyToolkit.create_fake_data`. -/
def create_fake_data (g : Nat → String) (t : Table) (c : String)
    (data_type : String) : Table × Report :=
  match create_fake_data_raw g t c data_type with
  | .ok t' =>
    (t', .success ("Column '" ++ c ++ "' replaced with fake " ++ data_type ++
      " data successfully."))
  | .error e =>
    (t, .failure ("Error while creating fake data in column '" ++ c ++ "': " ++
      renderErr e))

/-! ## drop_sensitive_data -/

/-- The `try`-block of `drop_sensitive_data`:
`df.drop(columns=[c], inplace=True)`, raising `KeyError` when the
column is absent. -/
def drop_sensitive_data_raw (t : Table) (c : String) : Except PyErr Table :=
  if t.cols.any (fun p => p.1 = c) then .ok (t.eraseCol c)
  else .error (.keyError c)

/-- `DataPrivacyToolkit.drop_sensitive_data`: a `KeyError` is caught by
its dedicated `except KeyError` branch, any other failure by the
generic one. -/
def drop_sensitive_data (t : Table) (c : String) : Table × Report :=
  match drop_sensitive_data_raw t c with
  | .ok t' => (t', .success ("Column '" ++ c ++ "' dropped successfully."))
  | .error (.keyError _) =>
    (t, .columnNotFound ("Error: Column '" ++ c ++ "' does not exist."))
  | .error e =>
    (t, .failure ("Error dropping column '" ++ c ++ "': " ++ renderErr e))

/-! ## save_anonymized_data (CSV rendering as `to_csv(..., index=False)`) -/

/-- How `to_csv` stringifies a cell: strings as themselves, integers in
decimal, missing values as the empty field. -/
def csvCell : PyVal → String
  | .str s => s
  | .int n => toString n
  | .none => ""

/-- Join character lists with a separator character. -/
def sepJoin (sep : Char) : List (List Char) → List Char
  | [] => []
  | [f] => f
  | f :: fs => f ++ sep :: sepJoin sep fs

/-- Split a character list on a separator character; always returns at
least one (possibly empty) field. -/
def splitOnChar (sep : Char) : List Char → List (List Char)
  | [] => [[]]
  | c :: rest =>
    if c = sep then [] :: splitOnChar sep rest
    else
      match splitOnChar sep rest with
      | [] => [[c]]
      | f :: fs => (c :: f) :: fs

/-- Row `i` of the table in stringified form, one field per column. -/
def csvRow (t : Table) (i : Nat) : List String :=
  t.cols.map (fun p => csvCell (p.2.getD i .none))

/-- The logical lines of the CSV file: the header of column names, then
one line per row. No index column is emitted (`index=False`). -/
def csvLines (t : Table) : List (List String) :=
  t.names :: (List.range t.nrows).map (csvRow t)

/-- The file content `to_csv` writes: each line is its comma-joined
fields followed by a newline. -/
def csvContent (t : Table) : String :=
  String.mk (((csvLines t).map
    (fun l => sepJoin ',' (l.map String.toList) ++ ['\n'])).flatten)

/-- Re-parsing a written CSV file: split into newline-terminated lines,
then split each line on commas. -/
def csvParse (s : String) : List (List String) :=
  ((splitOnChar '\n' s.toList).dropLast).map
    (fun l => (splitOnChar ',' l).map String.mk)

/-- The `try`-block of `save_anonymized_data`: `df.to_csv(file_name,
index=False)`. The file system's answer is modelled by `ioErr`: `none`
when the write succeeds, `some msg` when the OS raises an error with
that message. The produced value is the written content, if any. -/
def save_anonymized_data_raw (t : Table) (ioErr : Option String) :
    Except PyErr String :=
  match ioErr with
  | some m => .error (.osError m)
  | Option.none => .ok (csvContent t)

/-- `DataPrivacyToolkit.save_anonymized_data`: returns the written
content (when the write succeeded) and the printed report. -/
def save_anonymized_data (t : Table) (fname : String) (ioErr : Option String) :
    Option String × Report :=
  match save_anonymized_data_raw t ioErr with
  | .ok content =>
    (some content, .success ("Data saved to '" ++ fname ++ "' successfully."))
  | .error e =>
    (Option.none, .failure ("Error saving data to '" ++ fname ++ "': " ++
      renderErr e))

/-! ## Sequencing of operations

The demo driver calls the methods one after another on the shared
toolkit; because every method traps its own failures, each call in a
sequence runs and produces exactly one printed report. -/

/-- One method invocation of the toolkit. -/
inductive Op where
  | hash (c : String)
  | pseudonymize (c : String)
  | fake (c data_type : String)
  | drop (c : String)
  | save (fname : String)
deriving DecidableEq, Repr

/-- The environment of one call: the random stream for `pseudonymize`,
the faker stream for `create_fake_data`, and the file system's answer
for `save`. -/
structure Env where
  rand : Nat → Nat → Nat
  faker : Nat → Nat → String
  io : Nat → Option String

/-- Run call number `k` on the table. -/
def applyOp (env : Env) (k : Nat) (t : Table) : Op → Table × Report
  | .hash c => hash_data t c
  | .pseudonymize c => pseudonymize_data (env.rand k) t c
  | .fake c dt => create_fake_data (env.faker k) t c dt
  | .drop c => drop_sensitive_data t c
  | .save fname =>
    let (_, rep) := save_anonymized_data t fname (env.io k)
    (t, rep)

/-- Run a batch of calls in order, collecting every printed report. -/
def runAll (env : Env) : Nat → Table → List Op → Table × List Report
  | _, t, [] => (t, [])
  | k, t, op :: ops =>
    let (t', rep) := applyOp env k t op
    let (t'', reps) := runAll env (k + 1) t' ops
    (t'', rep :: reps)

/-! ## Character-class predicates used by the claims -/

/-- A lowercase hexadecimal digit. -/
def isLowerHex (c : Char) : Bool :=
  ('0' ≤ c && c ≤ '9') || ('a' ≤ c && c ≤ 'f')

/-- A character of the pseudonym alphabet {A–Z, a–z, 0–9}. -/
def isAlnum (c : Char) : Bool :=
  ('A' ≤ c && c ≤ 'Z') || ('a' ≤ c && c ≤ 'z') || ('0' ≤ c && c ≤ '9')

/-! ## Digest shape lemmas -/

theorem hexChar_lowerHex : ∀ n < 16, isLowerHex (hexChar n) = true := by decide

theorem isLowerHex_hexChar_mod (n : Nat) : isLowerHex (hexChar (n % 16)) = true :=
  hexChar_lowerHex (n % 16) (Nat.mod_lt n (by norm_num))

theorem wordHex_length (w : Nat) : (wordHex w).length = 8 := rfl

theorem wordHex_lowerHex (w : Nat) : ∀ c ∈ wordHex w, isLowerHex c = true := by
  intro c hc
  simp only [wordHex, List.mem_cons, List.not_mem_nil, or_false] at hc
  rcases hc with h | h | h | h | h | h | h | h <;>
    (subst h; exact isLowerHex_hexChar_mod _)

theorem sha256hex_length (m : List Nat) : (sha256hex m).length = 64 := by
  simp [sha256hex, String.length, wordHex]

theorem sha256hex_lowerHex (m : List Nat) :
    ∀ c ∈ (sha256hex m).toList, isLowerHex c = true := by
  intro c hc
  simp only [sha256hex, String.toList, String.mk, List.mem_append] at hc
  rcases hc with ((((((h | h) | h) | h) | h) | h) | h) | h <;>
    exact wordHex_lowerHex _ c h

set_option maxRecDepth 100000 in
/-- FIPS 180-4 test vector: the digest of the empty message. -/
theorem sha256hex_nist_empty :
    sha256hex [] =
      "e3b0c44298fc1c149afbf4c8996fb92427ae41e4649b934ca495991b7852b855" := by
  decide

set_option maxRecDepth 100000 in
/-- FIPS 180-4 test vector: the digest of `"abc"`. -/
theorem sha256hex_nist_abc :
    sha256hex (utf8 "abc") =
      "ba7816bf8f01cfea414140de5dae2223b00361a396177a9cb410ff61f20015ad" := by
  decide

/-! ## Column access lemmas -/

theorem find?_setList (l : List (String × List PyVal)) (c : String)
    (xs : List PyVal) :
    (l.map (fun p => if p.1 = c then (p.1, xs) else p)).find?
        (fun p => p.1 = c) =
      (l.find? (fun p => p.1 = c)).map (fun p => (p.1, xs)) := by
  induction l with
  | nil => rfl
  | cons a l ih =>
    by_cases h : a.1 = c
    · simp [List.find?, h]
    · simp [List.find?, h, ih]

theorem any_of_getCol_some (t : Table) (c : String) (vs : List PyVal)
    (h : t.getCol c = some vs) :
    t.cols.any (fun p => p.1 = c) = true := by
  rw [Table.getCol, Option.map_eq_some'] at h
  obtain ⟨p, hp, _⟩ := h
  have h1 := List.mem_of_find?_eq_some hp
  have h2 := List.find?_some hp
  exact List.any_eq_true.mpr ⟨p, h1, h2⟩

theorem getCol_setCol_self (t : Table) (c : String) (vs xs : List PyVal)
    (h : t.getCol c = some vs) :
    (t.setCol c xs).getCol c = some xs := by
  have hany := any_of_getCol_some t c vs h
  rw [Table.getCol, Option.map_eq_some'] at h
  obtain ⟨p, hp, _⟩ := h
  unfold Table.setCol
  rw [hany, if_pos rfl, Table.getCol, find?_setList, hp]
  rfl

theorem getCol_erase_self (t : Table) (c : String) :
    (t.eraseCol c).getCol c = Option.none := by
  rw [Table.getCol, Option.map_eq_none', Table.eraseCol]
  apply List.find?_eq_none.mpr
  intro p hp
  have := (List.mem_filter.mp hp).2
  simpa using this

theorem find?_filter_ne (l : List (String × List PyVal)) (c c' : String)
    (h : c' ≠ c) :
    (l.filter (fun p => p.1 ≠ c)).find? (fun p => p.1 = c') =
      l.find? (fun p => p.1 = c') := by
  induction l with
  | nil => rfl
  | cons a l ih =>
    by_cases hac : a.1 = c
    · have h1 : (decide (a.1 ≠ c)) = false := by simp [hac]
      have h2 : (decide (a.1 = c')) = false :=
        decide_eq_false (fun hh => h (hh ▸ hac))
      simp only [List.filter_cons, List.find?_cons, h1, h2,
        Bool.false_eq_true, if_false]
      exact ih
    · by_cases hbc : a.1 = c'
      · have h1 : (decide (a.1 ≠ c)) = true := by simp [hac]
        have h2 : (decide (a.1 = c')) = true := decide_eq_true hbc
        simp only [List.filter_cons, List.find?_cons, h1, h2, if_true]
      · have h1 : (decide (a.1 ≠ c)) = true := by simp [hac]
        have h2 : (decide (a.1 = c')) = false := decide_eq_false hbc
        simp only [List.filter_cons, List.find?_cons, h1, h2,
          Bool.false_eq_true, if_false, if_true]
        exact ih

theorem getCol_erase_other (t : Table) (c c' : String) (h : c' ≠ c) :
    (t.eraseCol c).getCol c' = t.getCol c' := by
  rw [Table.getCol, Table.getCol, Table.eraseCol]
  exact congrArg _ (find?_filter_ne t.cols c c' h)

theorem any_erase_self (t : Table) (c : String) :
    (t.eraseCol c).cols.any (fun p => p.1 = c) = false := by
  rw [Table.eraseCol]
  simp only [List.any_eq_false]
  intro p hp
  have := (List.mem_filter.mp hp).2
  simpa using this

/-! ## Pseudonym lemmas -/

theorem pseudonym_length (r : Nat → Nat) (off : Nat) :
    (pseudonym r off).length = 10 := by
  simp [pseudonym, String.length]

theorem pseudoAlphabet_alnum :
    ∀ n < 62, isAlnum (pseudoAlphabet.getD n 'a') = true := by decide

theorem pseudonym_chars (r : Nat → Nat) (off : Nat) :
    ∀ ch ∈ (pseudonym r off).toList, isAlnum ch = true := by
  intro ch hch
  simp only [pseudonym, String.toList, String.mk, List.mem_map] at hch
  obtain ⟨i, _, hi⟩ := hch
  rw [← hi]
  exact pseudoAlphabet_alnum _ (Nat.mod_lt _ (by norm_num))

theorem uniqueAux_mem (v : PyVal) :
    ∀ (l seen : List PyVal), v ∈ l → v ∈ uniqueAux l seen ∨ v ∈ seen := by
  intro l
  induction l with
  | nil => intro seen hv; cases hv
  | cons a l ih =>
    intro seen hv
    by_cases ha : a ∈ seen
    · rw [uniqueAux, if_pos ha]
      rcases List.mem_cons.mp hv with hva | hvl
      · exact Or.inr (hva ▸ ha)
      · exact ih seen hvl
    · rw [uniqueAux, if_neg ha]
      rcases List.mem_cons.mp hv with hva | hvl
      · exact Or.inl (hva ▸ List.mem_cons_self a _)
      · rcases ih (a :: seen) hvl with hres | hseen
        · exact Or.inl (List.mem_cons_of_mem a hres)
        · rcases List.mem_cons.mp hseen with hva | hs
          · exact Or.inl (hva ▸ List.mem_cons_self a _)
          · exact Or.inr hs

theorem mem_uniqueList (v : PyVal) (l : List PyVal) (h : v ∈ l) :
    v ∈ uniqueList l := by
  rcases uniqueAux_mem v l [] h with hr | hs
  · exact hr
  · cases hs

theorem lookup_buildPseudos (r : Nat → Nat) (v : PyVal) :
    ∀ (ul : List PyVal) (off0 : Nat), v ∈ ul →
      ∃ off : Nat, mapLookup (buildPseudos r off0 ul) v = .str (pseudonym r off) := by
  intro ul
  induction ul with
  | nil => intro off0 hv; cases hv
  | cons u rest ih =>
    intro off0 hv
    by_cases huv : u = v
    · refine ⟨off0, ?_⟩
      rw [buildPseudos, mapLookup, List.find?_cons_of_pos _ (by simpa using huv)]
    · have hvrest : v ∈ rest := by
        rcases List.mem_cons.mp hv with hva | hvl
        · exact absurd hva.symm huv
        · exact hvl
      obtain ⟨off, hoff⟩ := ih (off0 + 10) hvrest
      refine ⟨off, ?_⟩
      rw [buildPseudos, mapLookup, List.find?_cons_of_neg _ (by simpa using huv)]
      exact hoff

/-! ## setCol lemmas for absent columns and row counts -/

theorem find?_eq_none_of_any_false (l : List (String × List PyVal))
    (c : String) (hn : l.any (fun p => p.1 = c) = false) :
    l.find? (fun p => p.1 = c) = Option.none := by
  apply List.find?_eq_none.mpr
  intro p hp
  have := List.any_eq_false.mp hn p hp
  simpa using this

theorem getCol_setCol_new (t : Table) (c : String) (xs : List PyVal)
    (hn : t.cols.any (fun p => p.1 = c) = false) :
    (t.setCol c xs).getCol c = some xs := by
  unfold Table.setCol
  rw [if_neg (by simp [hn]), Table.getCol, List.find?_append,
    find?_eq_none_of_any_false t.cols c hn]
  simp [List.find?_cons]

theorem nrows_setCol (t : Table) (c : String) (xs : List PyVal)
    (h : xs.length = t.nrows) : (t.setCol c xs).nrows = t.nrows := by
  obtain ⟨cols⟩ := t
  cases cols with
  | nil =>
    simp only [Table.nrows] at h
    simp [Table.setCol, Table.nrows, h]
  | cons a l =>
    by_cases hac : a.1 = c
    · have hany : (a :: l).any (fun p => p.1 = c) = true := by
        simp [List.any_cons, hac]
      unfold Table.setCol
      rw [if_pos hany]
      simp only [List.map_cons, if_pos hac, Table.nrows]
      simpa [Table.nrows] using h
    · by_cases hany : (a :: l).any (fun p => p.1 = c) = true
      · unfold Table.setCol
        rw [if_pos hany]
        simp only [List.map_cons, if_neg hac, Table.nrows]
      · unfold Table.setCol
        rw [if_neg hany]
        simp only [Table.nrows, List.cons_append]

/-! ## CSV split/join lemmas -/

theorem splitOnChar_no_sep (sep : Char) (l : List Char) (h : sep ∉ l) :
    splitOnChar sep l = [l] := by
  induction l with
  | nil => rfl
  | cons c rest ih =>
    have hc : ¬ c = sep := fun hh => h (hh ▸ List.mem_cons_self c rest)
    have hrest : sep ∉ rest := fun hh => h (List.mem_cons_of_mem c hh)
    rw [splitOnChar, if_neg hc, ih hrest]

theorem splitOnChar_append_sep (sep : Char) (l rest : List Char)
    (h : sep ∉ l) :
    splitOnChar sep (l ++ sep :: rest) = l :: splitOnChar sep rest := by
  induction l with
  | nil => simp [splitOnChar]
  | cons c l ih =>
    have hc : ¬ c = sep := fun hh => h (hh ▸ List.mem_cons_self c l)
    have hl : sep ∉ l := fun hh => h (List.mem_cons_of_mem c hh)
    rw [List.cons_append, splitOnChar, if_neg hc, ih hl]

theorem sepJoin_splitOnChar (sep : Char) (fields : List (List Char))
    (hne : fields ≠ []) (h : ∀ f ∈ fields, sep ∉ f) :
    splitOnChar sep (sepJoin sep fields) = fields := by
  induction fields with
  | nil => exact absurd rfl hne
  | cons f fs ih =>
    cases fs with
    | nil =>
      rw [sepJoin]
      exact splitOnChar_no_sep sep f (h f (List.mem_cons_self f []))
    | cons f' fs' =>
      rw [show sepJoin sep (f :: f' :: fs') = f ++ sep :: sepJoin sep (f' :: fs')
          from rfl,
        splitOnChar_append_sep sep f _ (h f (List.mem_cons_self f _)),
        ih (by simp) (fun x hx => h x (List.mem_cons_of_mem f hx))]

theorem mem_sepJoin (sep x : Char) (fields : List (List Char))
    (h : x ∈ sepJoin sep fields) : x = sep ∨ ∃ f ∈ fields, x ∈ f := by
  induction fields with
  | nil => cases h
  | cons f fs ih =>
    cases fs with
    | nil =>
      rw [sepJoin] at h
      exact Or.inr ⟨f, List.mem_cons_self f [], h⟩
    | cons f' fs' =>
      rw [show sepJoin sep (f :: f' :: fs') = f ++ sep :: sepJoin sep (f' :: fs')
          from rfl] at h
      rcases List.mem_append.mp h with hf | hrest
      · exact Or.inr ⟨f, List.mem_cons_self f _, hf⟩
      · rcases List.mem_cons.mp hrest with hx | hx
        · exact Or.inl hx
        · rcases ih hx with hs | ⟨g, hg, hxg⟩
          · exact Or.inl hs
          · exact Or.inr ⟨g, List.mem_cons_of_mem f hg, hxg⟩

theorem splitOnChar_terminated_lines (sep : Char) (ls : List (List Char))
    (h : ∀ l ∈ ls, sep ∉ l) :
    splitOnChar sep ((ls.map (fun l => l ++ [sep])).flatten) = ls ++ [[]] := by
  induction ls with
  | nil => rfl
  | cons l ls ih =>
    rw [List.map_cons, List.flatten_cons, List.append_assoc, List.cons_append,
      List.nil_append, splitOnChar_append_sep sep l _ (h l (List.mem_cons_self l ls)),
      ih (fun x hx => h x (List.mem_cons_of_mem l hx))]
    rfl

theorem mk_toList (s : String) : String.mk s.toList = s := by
  obtain ⟨d⟩ := s
  rfl

/-- Successful-path equation for `hash_data` on a present column. -/
theorem hash_data_ok (t : Table) (c : String) (vs : List PyVal)
    (h : t.getCol c = some vs) :
    hash_data t c =
      (t.setCol c (vs.map (fun v => PyVal.str (sha256OfVal v))),
        .success ("Column '" ++ c ++ "' hashed successfully.")) := by
  unfold hash_data hash_data_raw
  rw [h]

end DPT

open DPT

/-- **C1.** For every table and every column name present in the table,
`hash_data` replaces each value of that column (missing values included,
after `str()` coercion) with the hex SHA-256 digest of the value's UTF-8
string representation; every digest is a 64-character lowercase hex
string; and values with equal string coercions get equal digests. -/
theorem claim1_hash_digests (t : Table) (c : String) (vs : List PyVal)
    (h : t.getCol c = some vs) :
    (hash_data t c).1.getCol c =
        some (vs.map (fun v => PyVal.str (sha256OfVal v))) ∧
    (hash_data t c).2 = .success ("Column '" ++ c ++ "' hashed successfully.") ∧
    (∀ v : PyVal, (sha256OfVal v).length = 64 ∧
      ∀ ch ∈ (sha256OfVal v).toList, isLowerHex ch = true) ∧
    (∀ v w : PyVal, pyStr v = pyStr w → sha256OfVal v = sha256OfVal w) := by
  have hraw : hash_data_raw t c =
      .ok (t.setCol c (vs.map (fun v => PyVal.str (sha256OfVal v)))) := by
    unfold hash_data_raw
    rw [h]
  refine ⟨?_, ?_, ?_, ?_⟩
  · unfold hash_data
    rw [hraw]
    exact getCol_setCol_self t c vs _ h
  · unfold hash_data
    rw [hraw]
  · intro v
    exact ⟨sha256hex_length _, sha256hex_lowerHex _⟩
  · intro v w hvw
    unfold sha256OfVal
    rw [hvw]

/-- Witness for C1 at a concrete table: a string, a missing value and an
integer in an `Email` column are all replaced by their digests. -/
theorem claim1_hash_digests_witness :
    (hash_data ⟨[("Email", [PyVal.str "a@x.com", PyVal.none, PyVal.int 7])]⟩
        "Email").1.getCol "Email" =
      some ([PyVal.str "a@x.com", PyVal.none, PyVal.int 7].map
        (fun v => PyVal.str (sha256OfVal v))) :=
  (claim1_hash_digests ⟨[("Email", [PyVal.str "a@x.com", PyVal.none, PyVal.int 7])]⟩
    "Email" _ rfl).1

/-- **C4.** For every table, column name, and tag outside the registered
set, `create_fake_data` reports the `ValueError` naming the valid tags
and leaves the table completely unmodified. -/
theorem claim4_unsupported_tag (g : Nat → String) (t : Table) (c dt : String)
    (h : dt ∉ generatorTags) :
    create_fake_data g t c dt =
      (t, .failure ("Error while creating fake data in column '" ++ c ++ "': " ++
        renderErr (.valueError ("Unsupported data type '" ++ dt ++
          "'. Supported types are: name, address, email, credit_card, phone.")))) := by
  unfold create_fake_data create_fake_data_raw
  rw [if_neg h]

/-- Witness for C4: the spec's own example, tag `"ssn"` on a table that
is returned untouched with the message listing the five valid tags. -/
theorem claim4_unsupported_tag_witness :
    create_fake_data (fun _ => "555") ⟨[("X", [PyVal.str "v"])]⟩ "X" "ssn" =
      (⟨[("X", [PyVal.str "v"])]⟩,
        .failure ("Error while creating fake data in column 'X': " ++
          renderErr (.valueError ("Unsupported data type 'ssn'. " ++
            "Supported types are: name, address, email, credit_card, phone.")))) := by
  have := claim4_unsupported_tag (fun _ => "555") ⟨[("X", [PyVal.str "v"])]⟩
    "X" "ssn" (by decide)
  simpa using this

/-- **C5.** For every table containing column `c`, `drop_sensitive_data`
removes exactly the columns labelled `c` (reporting success), leaves
every other column unchanged, and a second drop of the now-absent name
fails with the dedicated `ColumnNotFound` report. -/
theorem claim5_drop_column (t : Table) (c : String) (vs : List PyVal)
    (h : t.getCol c = some vs) :
    (drop_sensitive_data t c).1.cols = t.cols.filter (fun p => p.1 ≠ c) ∧
    (drop_sensitive_data t c).2 =
      .success ("Column '" ++ c ++ "' dropped successfully.") ∧
    (drop_sensitive_data t c).1.getCol c = Option.none ∧
    (∀ c' : String, c' ≠ c →
      (drop_sensitive_data t c).1.getCol c' = t.getCol c') ∧
    drop_sensitive_data (drop_sensitive_data t c).1 c =
      ((drop_sensitive_data t c).1,
        .columnNotFound ("Error: Column '" ++ c ++ "' does not exist.")) := by
  have hany := any_of_getCol_some t c vs h
  have hdrop : drop_sensitive_data t c =
      (t.eraseCol c, .success ("Column '" ++ c ++ "' dropped successfully.")) := by
    unfold drop_sensitive_data drop_sensitive_data_raw
    rw [hany, if_pos rfl]
  refine ⟨?_, ?_, ?_, ?_, ?_⟩
  · rw [hdrop]; rfl
  · rw [hdrop]
  · rw [hdrop]; exact getCol_erase_self t c
  · intro c' hc'
    rw [hdrop]
    exact getCol_erase_other t c c' hc'
  · rw [hdrop]
    unfold drop_sensitive_data drop_sensitive_data_raw
    rw [any_erase_self t c]
    rfl

/-- Witness for C5 at the spec's example: dropping `Email` removes it,
keeps `Name`, and a second drop reports `ColumnNotFound`. -/
theorem claim5_drop_column_witness :
    (drop_sensitive_data ⟨[("Name", [PyVal.str "Alice"]),
        ("Email", [PyVal.str "a@x.com"])]⟩ "Email").1.getCol "Email" =
        Option.none ∧
    (drop_sensitive_data ⟨[("Name", [PyVal.str "Alice"]),
        ("Email", [PyVal.str "a@x.com"])]⟩ "Email").1.getCol "Name" =
        some [PyVal.str "Alice"] ∧
    drop_sensitive_data
        (drop_sensitive_data ⟨[("Name", [PyVal.str "Alice"]),
          ("Email", [PyVal.str "a@x.com"])]⟩ "Email").1 "Email" =
      ((drop_sensitive_data ⟨[("Name", [PyVal.str "Alice"]),
          ("Email", [PyVal.str "a@x.com"])]⟩ "Email").1,
        .columnNotFound "Error: Column 'Email' does not exist.") := by
  have h := claim5_drop_column ⟨[("Name", [PyVal.str "Alice"]),
    ("Email", [PyVal.str "a@x.com"])]⟩ "Email" [PyVal.str "a@x.com"] rfl
  refine ⟨h.2.2.1, ?_, h.2.2.2.2⟩
  rw [h.2.2.2.1 "Name" (by decide)]
  rfl

/-- **C10.** When `hash_data` or `pseudonymize_data` is invoked with a
column name not present in the table, the `KeyError` is caught and
reported and the table is returned completely unchanged. -/
theorem claim10_missing_column_atomic (t : Table) (c : String)
    (h : t.getCol c = Option.none) :
    hash_data t c =
      (t, .failure ("Error while hashing column '" ++ c ++ "': " ++
        renderErr (.keyError c))) ∧
    ∀ r : Nat → Nat, pseudonymize_data r t c =
      (t, .failure ("Error while pseudonymizing column '" ++ c ++ "': " ++
        renderErr (.keyError c))) := by
  constructor
  · unfold hash_data hash_data_raw
    rw [h]
  · intro r
    unfold pseudonymize_data pseudonymize_data_raw
    rw [h]

/-- Witness for C10: hashing or pseudonymizing the absent column `"X"`
of a one-column table reports the error and changes nothing. -/
theorem claim10_missing_column_atomic_witness :
    hash_data ⟨[("A", [PyVal.int 1])]⟩ "X" =
      (⟨[("A", [PyVal.int 1])]⟩,
        .failure ("Error while hashing column 'X': " ++ renderErr (.keyError "X"))) ∧
    pseudonymize_data (fun _ => 0) ⟨[("A", [PyVal.int 1])]⟩ "X" =
      (⟨[("A", [PyVal.int 1])]⟩,
        .failure ("Error while pseudonymizing column 'X': " ++
          renderErr (.keyError "X"))) := by
  have h := claim10_missing_column_atomic ⟨[("A", [PyVal.int 1])]⟩ "X" rfl
  exact ⟨h.1, h.2 (fun _ => 0)⟩

/-- **C2.** For every table and column present in it, one
`pseudonymize_data` call replaces the whole column through a single
per-call mapping (so equal originals get equal pseudonyms, and every
cell is replaced by its mapped pseudonym); every pseudonym is exactly
10 characters from {A–Z, a–z, 0–9}; and no consistency holds between
two separate calls (two random streams can map the same column
differently). -/
theorem claim2_pseudonymize (r : Nat → Nat) (t : Table) (c : String)
    (vs : List PyVal) (h : t.getCol c = some vs) :
    (pseudonymize_data r t c).2 =
      .success ("Column '" ++ c ++ "' pseudonymized successfully.") ∧
    (pseudonymize_data r t c).1.getCol c =
      some (vs.map (mapLookup (buildPseudos r 0 (uniqueList vs)))) ∧
    (∀ i j : Nat, ∀ hi : i < vs.length, ∀ hj : j < vs.length,
      vs.get ⟨i, hi⟩ = vs.get ⟨j, hj⟩ →
        mapLookup (buildPseudos r 0 (uniqueList vs)) (vs.get ⟨i, hi⟩) =
          mapLookup (buildPseudos r 0 (uniqueList vs)) (vs.get ⟨j, hj⟩)) ∧
    (∀ v ∈ vs, ∃ p : String,
      mapLookup (buildPseudos r 0 (uniqueList vs)) v = .str p ∧
      p.length = 10 ∧ ∀ ch ∈ p.toList, isAlnum ch = true) ∧
    (∃ r₁ r₂ : Nat → Nat, ∃ t₀ : Table, ∃ c₀ : String,
      pseudonymize_data r₁ t₀ c₀ ≠ pseudonymize_data r₂ t₀ c₀) := by
  have hraw : pseudonymize_data_raw r t c =
      .ok (t.setCol c (vs.map (mapLookup (buildPseudos r 0 (uniqueList vs))))) := by
    unfold pseudonymize_data_raw
    rw [h]
  refine ⟨?_, ?_, ?_, ?_, ?_⟩
  · unfold pseudonymize_data
    rw [hraw]
  · unfold pseudonymize_data
    rw [hraw]
    exact getCol_setCol_self t c vs _ h
  · intro i j hi hj hij
    rw [hij]
  · intro v hv
    obtain ⟨off, hoff⟩ :=
      lookup_buildPseudos r v (uniqueList vs) 0 (mem_uniqueList v vs hv)
    exact ⟨pseudonym r off, hoff, pseudonym_length r off, pseudonym_chars r off⟩
  · refine ⟨fun _ => 0, fun _ => 1, ⟨[("A", [PyVal.str "x"])]⟩, "A", ?_⟩
    decide

/-- Witness for C2 on a concrete column with a repeated value: the
column is rewritten through the per-call mapping, and the pseudonym of
the repeated value `"Alice"` is a 10-character alphanumeric string. -/
theorem claim2_pseudonymize_witness :
    (pseudonymize_data (fun n => n)
        ⟨[("Name", [PyVal.str "Alice", PyVal.str "Bob", PyVal.str "Alice"])]⟩
        "Name").1.getCol "Name" =
      some ([PyVal.str "Alice", PyVal.str "Bob", PyVal.str "Alice"].map
        (mapLookup (buildPseudos (fun n => n) 0
          (uniqueList [PyVal.str "Alice", PyVal.str "Bob", PyVal.str "Alice"])))) ∧
    (∃ p : String,
      mapLookup (buildPseudos (fun n => n) 0
          (uniqueList [PyVal.str "Alice", PyVal.str "Bob", PyVal.str "Alice"]))
          (PyVal.str "Alice") = .str p ∧
      p.length = 10 ∧ ∀ ch ∈ p.toList, isAlnum ch = true) := by
  have h := claim2_pseudonymize (fun n => n)
    ⟨[("Name", [PyVal.str "Alice", PyVal.str "Bob", PyVal.str "Alice"])]⟩
    "Name" [PyVal.str "Alice", PyVal.str "Bob", PyVal.str "Alice"] rfl
  exact ⟨h.2.1, h.2.2.2.1 (PyVal.str "Alice") (by decide)⟩

/-- **C8.** For every table whose column `c` is present with the table's
row count, and every registered tag, `create_fake_data` replaces the
whole column with one fresh generator output per row (row `i` gets the
generator's `i`-th output, independent of the original content), and the
column's and the table's row counts are unchanged. -/
theorem claim8_substitute_synthetic (g : Nat → String) (t : Table)
    (c dt : String) (vs : List PyVal) (h : t.getCol c = some vs)
    (hdt : dt ∈ generatorTags) (hlen : vs.length = t.nrows) :
    (create_fake_data g t c dt).2 =
      .success ("Column '" ++ c ++ "' replaced with fake " ++ dt ++
        " data successfully.") ∧
    (create_fake_data g t c dt).1.getCol c =
      some ((List.range t.nrows).map (fun i => PyVal.str (g i))) ∧
    ((List.range t.nrows).map (fun i => PyVal.str (g i))).length = vs.length ∧
    (create_fake_data g t c dt).1.nrows = t.nrows := by
  have hraw : create_fake_data_raw g t c dt =
      .ok (t.setCol c ((List.range t.nrows).map (fun i => PyVal.str (g i)))) := by
    unfold create_fake_data_raw
    rw [if_pos hdt]
  refine ⟨?_, ?_, ?_, ?_⟩
  · unfold create_fake_data
    rw [hraw]
  · unfold create_fake_data
    rw [hraw]
    exact getCol_setCol_self t c vs _ h
  · simp [hlen]
  · unfold create_fake_data
    rw [hraw]
    exact nrows_setCol t c _ (by simp [hlen])

/-- Witness for C8: substituting the `Phone` column of a two-row table
with tag `"phone"` yields two fresh generator outputs and keeps both row
counts at 2. -/
theorem claim8_substitute_synthetic_witness :
    (create_fake_data (fun i => "p" ++ toString i)
        ⟨[("Phone", [PyVal.str "111", PyVal.str "222"])]⟩ "Phone" "phone").1.getCol
        "Phone" =
      some [PyVal.str "p0", PyVal.str "p1"] ∧
    (create_fake_data (fun i => "p" ++ toString i)
        ⟨[("Phone", [PyVal.str "111", PyVal.str "222"])]⟩ "Phone" "phone").1.nrows = 2 := by
  have h := claim8_substitute_synthetic (fun i => "p" ++ toString i)
    ⟨[("Phone", [PyVal.str "111", PyVal.str "222"])]⟩ "Phone" "phone"
    [PyVal.str "111", PyVal.str "222"] rfl (by decide) rfl
  refine ⟨?_, h.2.2.2⟩
  rw [h.2.1]
  rfl

/-- **C7 as stated is false**: after `drop_sensitive_data` removes
column `A`, `create_fake_data` with the valid tag `"phone"` does not
fail with `ColumnNotFound` — pandas column assignment re-creates the
column, and the call succeeds. -/
theorem claim7_counterexample :
    (drop_sensitive_data ⟨[("A", [PyVal.str "x"]), ("B", [PyVal.str "y"])]⟩
        "A").2 = .success "Column 'A' dropped successfully." ∧
    create_fake_data (fun _ => "555")
        (drop_sensitive_data ⟨[("A", [PyVal.str "x"]), ("B", [PyVal.str "y"])]⟩
          "A").1 "A" "phone" =
      (⟨[("B", [PyVal.str "y"]), ("A", [PyVal.str "555"])]⟩,
        .success "Column 'A' replaced with fake phone data successfully.") := by
  decide

/-- **C7 amended.** After `drop_sensitive_data` succeeds on column `c`,
`hash_data` and `pseudonymize_data` targeting `c` fail with the caught
`KeyError` and leave the table unchanged; `create_fake_data` with a
registered tag instead succeeds, re-creating column `c` with fresh
synthetic values. -/
theorem claim7_after_drop (t : Table) (c : String) (vs : List PyVal)
    (h : t.getCol c = some vs) :
    hash_data (drop_sensitive_data t c).1 c =
      ((drop_sensitive_data t c).1,
        .failure ("Error while hashing column '" ++ c ++ "': " ++
          renderErr (.keyError c))) ∧
    (∀ r : Nat → Nat, pseudonymize_data r (drop_sensitive_data t c).1 c =
      ((drop_sensitive_data t c).1,
        .failure ("Error while pseudonymizing column '" ++ c ++ "': " ++
          renderErr (.keyError c)))) ∧
    (∀ g : Nat → String, ∀ dt ∈ generatorTags,
      (create_fake_data g (drop_sensitive_data t c).1 c dt).2 =
        .success ("Column '" ++ c ++ "' replaced with fake " ++ dt ++
          " data successfully.") ∧
      (create_fake_data g (drop_sensitive_data t c).1 c dt).1.getCol c =
        some ((List.range (drop_sensitive_data t c).1.nrows).map
          (fun i => PyVal.str (g i)))) := by
  have hany := any_of_getCol_some t c vs h
  have hdrop : (drop_sensitive_data t c).1 = t.eraseCol c := by
    unfold drop_sensitive_data drop_sensitive_data_raw
    rw [hany, if_pos rfl]
  have hnone : (drop_sensitive_data t c).1.getCol c = Option.none := by
    rw [hdrop]; exact getCol_erase_self t c
  refine ⟨?_, ?_, ?_⟩
  · unfold hash_data hash_data_raw
    rw [hnone]
  · intro r
    unfold pseudonymize_data pseudonymize_data_raw
    rw [hnone]
  · intro g dt hdt
    have hraw : create_fake_data_raw g (drop_sensitive_data t c).1 c dt =
        .ok ((drop_sensitive_data t c).1.setCol c
          ((List.range (drop_sensitive_data t c).1.nrows).map
            (fun i => PyVal.str (g i)))) := by
      unfold create_fake_data_raw
      rw [if_pos hdt]
    have hanyerase : (drop_sensitive_data t c).1.cols.any
        (fun p => p.1 = c) = false := by
      rw [hdrop]; exact any_erase_self t c
    constructor
    · unfold create_fake_data
      rw [hraw]
    · unfold create_fake_data
      rw [hraw]
      exact getCol_setCol_new _ c _ hanyerase

/-- Witness for the amended C7: on a concrete two-column table, after
dropping `A`, hashing `A` fails with the caught `KeyError` while
substitution with tag `"phone"` succeeds and re-creates `A`. -/
theorem claim7_after_drop_witness :
    hash_data (drop_sensitive_data
        ⟨[("A", [PyVal.str "x"]), ("B", [PyVal.str "y"])]⟩ "A").1 "A" =
      ((drop_sensitive_data
          ⟨[("A", [PyVal.str "x"]), ("B", [PyVal.str "y"])]⟩ "A").1,
        .failure ("Error while hashing column 'A': " ++ renderErr (.keyError "A"))) ∧
    (create_fake_data (fun _ => "555")
        (drop_sensitive_data
          ⟨[("A", [PyVal.str "x"]), ("B", [PyVal.str "y"])]⟩ "A").1 "A"
        "phone").1.getCol "A" = some [PyVal.str "555"] := by
  have h := claim7_after_drop
    ⟨[("A", [PyVal.str "x"]), ("B", [PyVal.str "y"])]⟩ "A" [PyVal.str "x"] rfl
  refine ⟨h.1, ?_⟩
  rw [(h.2.2 (fun _ => "555") "phone" (by decide)).2]
  rfl

set_option maxRecDepth 100000 in
/-- **C9 as stated is false**: applying `hash_data` a second time to the
same existing column does not leave the table as after one application —
on a concrete one-cell table the twice-hashed state differs, because the
second pass hashes the digests again. -/
theorem claim9_counterexample :
    (hash_data (hash_data ⟨[("A", [PyVal.str "x"])]⟩ "A").1 "A").1 ≠
      (hash_data ⟨[("A", [PyVal.str "x"])]⟩ "A").1 := by
  decide

/-- **C9 amended.** `hash_data` is not idempotent: a second application
re-hashes the already-hashed column, producing the digest of each
digest (which in general differs from the single application, as the
counterexample shows); `drop_sensitive_data`, by contrast, is idempotent
on the table state — the second call fails but changes nothing. -/
theorem claim9_reapplication (t : Table) (c : String) (vs : List PyVal)
    (h : t.getCol c = some vs) :
    (hash_data (hash_data t c).1 c).1.getCol c =
      some (vs.map (fun v => PyVal.str (sha256hex (utf8 (sha256OfVal v))))) ∧
    (∀ t' : Table, ∀ c' : String,
      (drop_sensitive_data (drop_sensitive_data t' c').1 c').1 =
        (drop_sensitive_data t' c').1) := by
  constructor
  · have hget1 : (hash_data t c).1.getCol c =
        some (vs.map (fun v => PyVal.str (sha256OfVal v))) := by
      rw [hash_data_ok t c vs h]
      exact getCol_setCol_self t c vs _ h
    rw [hash_data_ok (hash_data t c).1 c _ hget1]
    show ((hash_data t c).1.setCol c _).getCol c = _
    rw [getCol_setCol_self (hash_data t c).1 c _ _ hget1, List.map_map]
    rfl
  · intro t' c'
    by_cases hany : t'.cols.any (fun p => p.1 = c') = true
    · have h1 : (drop_sensitive_data t' c').1 = t'.eraseCol c' := by
        unfold drop_sensitive_data drop_sensitive_data_raw
        rw [if_pos hany]
      have h2 : (drop_sensitive_data (t'.eraseCol c') c').1 = t'.eraseCol c' := by
        unfold drop_sensitive_data drop_sensitive_data_raw
        rw [if_neg (by simp [any_erase_self t' c'])]
      rw [h1, h2]
    · have h1 : (drop_sensitive_data t' c').1 = t' := by
        unfold drop_sensitive_data drop_sensitive_data_raw
        rw [if_neg hany]
      rw [h1]
      exact h1

/-- Witness for the amended C9: on a one-cell table, hashing twice
yields the digest of the digest, and dropping twice yields the same
state as dropping once. -/
theorem claim9_reapplication_witness :
    (hash_data (hash_data ⟨[("A", [PyVal.str "x"])]⟩ "A").1 "A").1.getCol "A" =
      some [PyVal.str (sha256hex (utf8 (sha256OfVal (PyVal.str "x"))))] ∧
    (drop_sensitive_data
        (drop_sensitive_data ⟨[("A", [PyVal.str "x"])]⟩ "A").1 "A").1 =
      (drop_sensitive_data ⟨[("A", [PyVal.str "x"])]⟩ "A").1 := by
  have h := claim9_reapplication ⟨[("A", [PyVal.str "x"])]⟩ "A"
    [PyVal.str "x"] rfl
  exact ⟨h.1, h.2 ⟨[("A", [PyVal.str "x"])]⟩ "A"⟩

/-- **C3.** Every operation catches all failures of its body at its own
boundary and converts them into a printed report carrying the operation
name and the column/tag/path, with the table handed back unchanged;
consequently a batch of calls never aborts: every operation in a
sequence runs and contributes exactly one report. -/
theorem claim3_error_boundary :
    (∀ (t : Table) (c : String) (e : PyErr), hash_data_raw t c = .error e →
      hash_data t c =
        (t, .failure ("Error while hashing column '" ++ c ++ "': " ++
          renderErr e))) ∧
    (∀ (r : Nat → Nat) (t : Table) (c : String) (e : PyErr),
      pseudonymize_data_raw r t c = .error e →
      pseudonymize_data r t c =
        (t, .failure ("Error while pseudonymizing column '" ++ c ++ "': " ++
          renderErr e))) ∧
    (∀ (g : Nat → String) (t : Table) (c dt : String) (e : PyErr),
      create_fake_data_raw g t c dt = .error e →
      create_fake_data g t c dt =
        (t, .failure ("Error while creating fake data in column '" ++ c ++
          "': " ++ renderErr e))) ∧
    (∀ (t : Table) (c k : String),
      drop_sensitive_data_raw t c = .error (.keyError k) →
      drop_sensitive_data t c =
        (t, .columnNotFound ("Error: Column '" ++ c ++ "' does not exist."))) ∧
    (∀ (t : Table) (fname m : String),
      save_anonymized_data_raw t (some m) = .error (.osError m) ∧
      save_anonymized_data t fname (some m) =
        (Option.none, .failure ("Error saving data to '" ++ fname ++ "': " ++ m))) ∧
    (∀ (env : Env) (k : Nat) (t : Table) (ops : List Op),
      ((runAll env k t ops).2).length = ops.length) := by
  refine ⟨?_, ?_, ?_, ?_, ?_, ?_⟩
  · intro t c e he
    unfold hash_data
    rw [he]
  · intro r t c e he
    unfold pseudonymize_data
    rw [he]
  · intro g t c dt e he
    unfold create_fake_data
    rw [he]
  · intro t c k he
    unfold drop_sensitive_data
    rw [he]
  · intro t fname m
    exact ⟨rfl, rfl⟩
  · intro env k t ops
    induction ops generalizing k t with
    | nil => rfl
    | cons op ops ih => simp [runAll, ih]

/-- Witness for C3: a missing-column hash on an empty table is caught
and reported with the table unchanged, and a four-call batch in which
every call fails still produces four reports. -/
theorem claim3_error_boundary_witness :
    hash_data ⟨[]⟩ "X" =
      (⟨[]⟩, .failure ("Error while hashing column 'X': " ++
        renderErr (.keyError "X"))) ∧
    ((runAll ⟨fun _ _ => 0, fun _ _ => "f", fun _ => some "disk full"⟩ 0 ⟨[]⟩
      [Op.hash "A", Op.drop "A", Op.fake "A" "ssn", Op.save "out.csv"]).2).length =
      4 := by
  have h := claim3_error_boundary
  exact ⟨h.1 ⟨[]⟩ "X" (.keyError "X") rfl,
    h.2.2.2.2.2 ⟨fun _ _ => 0, fun _ _ => "f", fun _ => some "disk full"⟩ 0 ⟨[]⟩
      [Op.hash "A", Op.drop "A", Op.fake "A" "ssn", Op.save "out.csv"]⟩

/-- **C6.** For every nonempty-schema table whose names and stringified
cells are free of the delimiter characters, the written CSV is a header
line of comma-separated column names followed by one comma-separated
line per row, with no index column: re-parsing it yields exactly the
column names in order followed by the rows' string-form values in
order, and every parsed line has exactly one field per column. -/
theorem claim6_export_roundtrip (t : Table) (hcols : t.cols ≠ [])
    (hgood : ∀ l ∈ csvLines t, ∀ f ∈ l,
      ¬ ',' ∈ f.toList ∧ ¬ '\n' ∈ f.toList) :
    csvParse (csvContent t) =
      t.names :: (List.range t.nrows).map
        (fun i => t.cols.map (fun p => csvCell (p.2.getD i PyVal.none))) ∧
    ∀ l ∈ csvParse (csvContent t), l.length = t.cols.length := by
  have hne : ∀ l ∈ csvLines t, l ≠ [] := by
    intro l hl
    rcases List.mem_cons.mp hl with h1 | h2
    · subst h1
      unfold Table.names
      intro hl0
      exact hcols (List.map_eq_nil_iff.mp hl0)
    · obtain ⟨i, _, rfl⟩ := List.mem_map.mp h2
      unfold csvRow
      intro hl0
      exact hcols (List.map_eq_nil_iff.mp hl0)
  have hnosepline : ∀ l ∈ csvLines t,
      '\n' ∉ sepJoin ',' (l.map String.toList) := by
    intro l hl hmem
    rcases mem_sepJoin ',' '\n' _ hmem with heq | ⟨f, hf, hxf⟩
    · exact absurd heq (by decide)
    · obtain ⟨s, hs, rfl⟩ := List.mem_map.mp hf
      exact (hgood l hl s hs).2 hxf
  have key1 : splitOnChar '\n' (csvContent t).toList =
      (csvLines t).map (fun l => sepJoin ',' (l.map String.toList)) ++ [[]] := by
    show splitOnChar '\n'
        (((csvLines t).map
          (fun l => sepJoin ',' (l.map String.toList) ++ ['\n'])).flatten) = _
    rw [show ((csvLines t).map
          (fun l => sepJoin ',' (l.map String.toList) ++ ['\n'])) =
        (((csvLines t).map (fun l => sepJoin ',' (l.map String.toList))).map
          (fun l => l ++ ['\n'])) from by rw [List.map_map]; rfl]
    apply splitOnChar_terminated_lines
    intro l hl
    obtain ⟨l0, hl0, rfl⟩ := List.mem_map.mp hl
    exact hnosepline l0 hl0
  have hparse : csvParse (csvContent t) = csvLines t := by
    unfold csvParse
    rw [key1, List.dropLast_concat, List.map_map]
    have : ∀ l ∈ csvLines t,
        ((fun l => (splitOnChar ',' l).map String.mk) ∘
          (fun l => sepJoin ',' (l.map String.toList))) l = id l := by
      intro l hl
      show (splitOnChar ',' (sepJoin ',' (l.map String.toList))).map String.mk = l
      rw [sepJoin_splitOnChar ',' (l.map String.toList)
        (fun hh => hne l hl (List.map_eq_nil_iff.mp hh))
        (by
          intro f hf
          obtain ⟨s, hs, rfl⟩ := List.mem_map.mp hf
          exact (hgood l hl s hs).1),
        List.map_map]
      calc l.map (String.mk ∘ String.toList)
          = l.map id := List.map_congr_left (fun s _ => mk_toList s)
        _ = l := List.map_id l
    rw [List.map_congr_left this, List.map_id]
  refine ⟨hparse, ?_⟩
  intro l hl
  rw [hparse] at hl
  rcases List.mem_cons.mp hl with h1 | h2
  · subst h1
    unfold Table.names
    exact List.length_map _ _
  · obtain ⟨i, _, rfl⟩ := List.mem_map.mp h2
    unfold csvRow
    exact List.length_map _ _

set_option maxRecDepth 100000 in
/-- Witness for C6 at the spec's 3-row, 3-column example: the written
file parses back to the header and the three stringified rows, each of
width 3. -/
theorem claim6_export_roundtrip_witness :
    csvParse (csvContent ⟨[
        ("Name", [PyVal.str "Alice", PyVal.str "Bob", PyVal.str "Charlie"]),
        ("Email", [PyVal.str "a@x.com", PyVal.str "b@x.com", PyVal.str "c@x.com"]),
        ("Phone", [PyVal.int 111, PyVal.int 222, PyVal.int 333])]⟩) =
      [["Name", "Email", "Phone"],
       ["Alice", "a@x.com", "111"],
       ["Bob", "b@x.com", "222"],
       ["Charlie", "c@x.com", "333"]] := by
  have h := claim6_export_roundtrip ⟨[
      ("Name", [PyVal.str "Alice", PyVal.str "Bob", PyVal.str "Charlie"]),
      ("Email", [PyVal.str "a@x.com", PyVal.str "b@x.com", PyVal.str "c@x.com"]),
      ("Phone", [PyVal.int 111, PyVal.int 222, PyVal.int 333])]⟩
    (by decide) (by decide)
  rw [h.1]
  rfl

